import Mathlib

/-!
Shallow embedding of the pdf_n_in_1 batch tool (src/main.py) and proofs of
the specification claims about it.

External collaborators (PDF rasterization, the image downscale primitive,
the filesystem) are modelled abstractly: raster images carry their pixel
dimensions and an abstract payload, the aspect-preserving downscale filter
is a parameter of the pipeline, and file sizes are inputs.  Everything the
claims quantify over — chunking, padding, grid placement, the greedy
size-bounded merge, output naming, the top-level driver — is translated
directly from the source.
-/

namespace PdfNin1

/-- Module-level constant COLS from main.py line 16. -/
def COLS : Nat := 4

/-- Module-level constant ROWS from main.py line 17. -/
def ROWS : Nat := 5

/-- PAGES_PER_SHEET = COLS * ROWS, main.py line 18. -/
def PAGES_PER_SHEET : Nat := COLS * ROWS

/-- Target merged-file size in megabytes, main.py line 24. -/
def TARGET_MB : Nat := 20

/-- A4 canvas width in pixels at 300 dpi, main.py line 27. -/
def A4_W : Nat := 2480

/-- A4 canvas height in pixels at 300 dpi, main.py line 27. -/
def A4_H : Nat := 3508

/-- A decoded raster image: pixel dimensions plus an abstract payload
standing for the pixel buffer (the buffer itself is produced and consumed
by the external image library). -/
structure Img where
  width : Nat
  height : Nat
  data : Nat
deriving DecidableEq, Repr

/-- The fresh blank white A4 image created by Image.new in main.py
lines 50 and 88; payload 255 stands for solid white. -/
def blank : Img := { width := A4_W, height := A4_H, data := 255 }

/-- One paste operation onto the sheet canvas: the top-left corner the
(already downscaled) image is pasted at.  Coordinates are integers because
Python floor division of a possibly negative leftover is used. -/
structure Paste where
  x : Int
  y : Int
  img : Img
deriving DecidableEq, Repr

/-- The composed sheet: canvas dimensions plus the pastes performed on the
white background, in loop order. -/
structure Sheet where
  width : Nat
  height : Nat
  pastes : List Paste
deriving DecidableEq, Repr

/-- build_grid_sheet, main.py lines 43-60.  The parameter th models the
external in-place Image.thumbnail call (aspect-preserving downscale into a
bounding box); the code reads back the mutated dimensions, modelled here by
using the result of th.  A count mismatch raises ValueError (line 45); a
zero grid dimension would raise ZeroDivisionError at the cell-size integer
divisions on lines 47-48, after the count check. -/
def build_grid_sheet (th : Img → Nat → Nat → Img) (images : List Img)
    (cols : Nat := COLS) (rows : Nat := ROWS) : Except String Sheet :=
  if images.length ≠ cols * rows then
    .error ("need exact " ++ toString (cols * rows) ++ " images")
  else if cols = 0 ∨ rows = 0 then
    .error "ZeroDivisionError: integer division or modulo by zero"
  else
    let cell_w := A4_W / cols
    let cell_h := A4_H / rows
    .ok { width := A4_W, height := A4_H,
          pastes := images.enum.map (fun pr =>
            let idx := pr.1
            let img := th pr.2 cell_w cell_h
            let col := idx % cols
            let row := idx / cols
            let x := col * cell_w
            let y := row * cell_h
            let offset_x := ((cell_w : Int) - (img.width : Int)).fdiv 2
            let offset_y := ((cell_h : Int) - (img.height : Int)).fdiv 2
            { x := (x : Int) + offset_x, y := (y : Int) + offset_y,
              img := img }) }

/-- images_to_pdf, main.py lines 63-72: saves the first image with the rest
appended, so an empty list raises IndexError at images[0]; the written PDF
has one page per image, in order. -/
def images_to_pdf (images : List Sheet) : Except String (List Sheet) :=
  match images with
  | [] => .error "list index out of range"
  | s :: rest => .ok (s :: rest)

/-- The index sequence of Python range(0, n, k) for positive step k:
0, k, 2k, ... below n. -/
def pyRange (n k : Nat) : List Nat :=
  (List.range ((n + k - 1) / k)).map (· * k)

/-- Padding loops of main.py lines 89-90 and 96-97: append the blank image
until the list reaches length k. -/
def padTo (l : List Img) (k : Nat) : List Img :=
  l ++ List.replicate (k - l.length) blank

/-- The sheet-building loops of process_single_pdf, main.py lines 85-98:
outer chunks of pages_per_sheet pages (padded with blanks), inner groups of
grid = COLS * ROWS images (padded with blanks), one build_grid_sheet call
per group, with any ValueError propagating. -/
def process_sheets (th : Img → Nat → Nat → Img) (imgs : List Img)
    (pages_per_sheet : Nat) : List (Except String Sheet) :=
  (pyRange imgs.length pages_per_sheet).flatMap (fun i =>
    let chunk := padTo ((imgs.drop i).take pages_per_sheet) pages_per_sheet
    let grid := COLS * ROWS
    (pyRange pages_per_sheet grid).map (fun j =>
      let group := padTo ((chunk.drop j).take grid) grid
      build_grid_sheet th group COLS ROWS))

/-- Sequencing of a list of fallible results: the first raised exception
propagates, as in the straight-line Python loops. -/
def seqE {α : Type} : List (Except String α) → Except String (List α)
  | [] => .ok []
  | x :: xs => do
    let a ← x
    let rest ← seqE xs
    .ok (a :: rest)

/-- process_single_pdf, main.py lines 75-103: build all sheets for one
source document, then encode them into one tiled PDF (a list of sheet
pages).  The mkdir and the output path are filesystem effects modelled
elsewhere. -/
def process_single_pdf (th : Img → Nat → Nat → Img) (imgs : List Img)
    (pages_per_sheet : Nat := PAGES_PER_SHEET) : Except String (List Sheet) := do
  let sheets ← seqE (process_sheets th imgs pages_per_sheet)
  images_to_pdf sheets

/-- A tiled document as seen by the merger: its on-disk byte size
(p.stat().st_size) and its ordered pages (abstract page identifiers). -/
structure Doc where
  size : Nat
  pages : List Nat
deriving DecidableEq, Repr

/-- Zero-padding of the merged-file index as produced by the Python format
specifier 03d: minimum width three, wider numbers unchanged. -/
def fmtIdx (n : Nat) : String :=
  if n < 10 then "00" ++ toString n
  else if n < 100 then "0" ++ toString n
  else toString n

/-- The merged output filename built on main.py lines 119 and 130. -/
def partName (idx : Nat) : String :=
  "merged_part" ++ fmtIdx idx ++ ".pdf"

/-- merge_pdfs, main.py lines 136-144: page-level concatenation of the
documents of one group, in order. -/
def merge_pdfs (docs : List Doc) : List Nat :=
  (docs.map Doc.pages).flatten

/-- The loop state of merge_by_size: emitted outputs so far, the running
group in accumulated order, its accumulated byte size, and the next output
index. -/
structure MergeSt where
  out : List (String × List Doc)
  cur : List Doc
  curSize : Nat
  idx : Nat
deriving Repr

/-- One iteration of the loop on main.py lines 115-126: flush the running
group first when adding the next document would exceed the target and the
group is non-empty, then always append the document and add its size. -/
def mergeStep (target_bytes : Nat) (st : MergeSt) (p : Doc) : MergeSt :=
  let sz := p.size
  let st1 :=
    if st.curSize + sz > target_bytes ∧ st.cur ≠ [] then
      { out := st.out ++ [(partName st.idx, st.cur)],
        cur := [], curSize := 0, idx := st.idx + 1 }
    else st
  { st1 with cur := st1.cur ++ [p], curSize := st1.curSize + sz }

/-- The trailing flush on main.py lines 129-132. -/
def mergeFinish (st : MergeSt) : List (String × List Doc) :=
  if st.cur ≠ [] then st.out ++ [(partName st.idx, st.cur)] else st.out

/-- merge_by_size, main.py lines 106-133: greedy single pass in input
order; returns the emitted output files as pairs of filename and source
group (the written file is merge_pdfs of the group). -/
def merge_by_size (pdf_paths : List Doc) (target_mb : Nat := TARGET_MB) :
    List (String × List Doc) :=
  let target_bytes := target_mb * 1024 * 1024
  mergeFinish (pdf_paths.foldl (mergeStep target_bytes) ⟨[], [], 0, 0⟩)

/-- A directory entry as the source enumeration on main.py lines 150-153
sees it: pathlib name, stem and suffix, and whether it is a regular file. -/
structure DirEntry where
  name : String
  stem : String
  suffix : String
  isFile : Bool
deriving DecidableEq, Repr

/-- The filter of main.py lines 150-153: regular files whose lowercased
suffix is .pdf. -/
def isPdfEntry (e : DirEntry) : Bool :=
  e.isFile && e.suffix.toLower == ".pdf"

/-- sorted(...) over the filtered entries, main.py lines 150-153: paths
compare by their string form. -/
def listSrcPdfs (entries : List DirEntry) : List DirEntry :=
  (entries.filter isPdfEntry).mergeSort (fun a b => a.name ≤ b.name)

/-- The tiled output filename of main.py line 101. -/
def tiledName (stem : String) : String :=
  stem ++ "_" ++ toString COLS ++ "x" ++ toString ROWS ++ ".pdf"

/-- One line of standard output, at event granularity (the exact Chinese
text and the one-decimal megabyte rendering are kept abstract except for
the no-files message, which is a plain constant string in the source). -/
inductive OutLine where
  | noFiles : OutLine
  | found (n : Nat) : OutLine
  | perDoc (pagesPerSheet : Nat) (name : String) : OutLine
  | mergeStart : OutLine
  | allDone : OutLine
  | mergedFile (name : String) (sizeBytes : Nat) : OutLine
deriving DecidableEq, Repr

/-- The observable outcome of one run: standard output lines, tiled files
written, merged files written (with their source groups). -/
structure RunResult where
  printed : List OutLine
  tiled : List String
  merged : List (String × List Doc)
deriving Repr

/-- main, main.py lines 147-171.  The external world is passed in: the
directory listing, the rasterizer (render gives the page images of a
source path) and the filesystem size of a written tiled file (szOf).  An
empty filtered listing prints the no-files message and returns; otherwise
every source document is processed in sorted order and the tiled outputs
are merged by size. -/
def main (th : Img → Nat → Nat → Img) (render : String → List Img)
    (szOf : String → Nat) (entries : List DirEntry) :
    Except String RunResult :=
  let src_pdfs := listSrcPdfs entries
  if src_pdfs = [] then
    .ok { printed := [.noFiles], tiled := [], merged := [] }
  else do
    let small ← seqE (src_pdfs.map (fun e =>
      (process_single_pdf th (render e.name) PAGES_PER_SHEET).map
        (fun sheets => (tiledName e.stem, sheets))))
    let small_docs := small.map (fun s =>
      ({ size := szOf s.1, pages := List.range s.2.length } : Doc))
    let merged_list := merge_by_size small_docs TARGET_MB
    .ok { printed :=
            [.found src_pdfs.length]
              ++ src_pdfs.map (fun e => .perDoc PAGES_PER_SHEET e.name)
              ++ [.mergeStart, .allDone]
              ++ merged_list.map (fun m => .mergedFile m.1 (szOf m.1)),
          tiled := small.map Prod.fst,
          merged := merged_list }

/-- Transcription of the specification text for the Size-Bounded Merger
(the four numbered steps of section 4.5), written as direct recursion on
the remaining input so it can be compared with merge_by_size: flush when
adding the next document would exceed the threshold and the running group
is non-empty, always append, flush the remainder at the end. -/
def mergeSpecWords (target_bytes : Nat) :
    List Doc → List Doc → Nat → Nat → List (String × List Doc)
  | [], cur, _, idx => if cur = [] then [] else [(partName idx, cur)]
  | p :: rest, cur, curSize, idx =>
    if curSize + p.size > target_bytes ∧ cur ≠ [] then
      (partName idx, cur) :: mergeSpecWords target_bytes rest [p] p.size (idx + 1)
    else
      mergeSpecWords target_bytes rest (cur ++ [p]) (curSize + p.size) idx

/-- A trivial model of the external thumbnail primitive used to
instantiate theorems at concrete inputs: it leaves the image unchanged
(adequate whenever the image already fits its cell). -/
def thW : Img → Nat → Nat → Img := fun i _ _ => i

/-- A rasterizer returning no pages, for concrete instantiations. -/
def renderW : String → List Img := fun _ => []

/-- A file-size oracle returning zero, for concrete instantiations. -/
def szOfW : String → Nat := fun _ => 0

/-- A boundedness property of one merge group: its cumulative source size
is within the target, or it is a single document. -/
def GroupOk (target_bytes : Nat) (g : List Doc) : Prop :=
  (g.map Doc.size).sum ≤ target_bytes ∨ ∃ d, g = [d]

/-- The concrete sheet produced from a single 100 by 200 image on a one by
one grid, used to instantiate the canvas-dimension theorem. -/
def sheetW : Sheet :=
  { width := 2480, height := 3508,
    pastes := [{ x := 1190, y := 1654,
                 img := { width := 100, height := 200, data := 7 } }] }

theorem mergeFinish_foldl (t : Nat) (docs : List Doc) : ∀ st : MergeSt,
    mergeFinish (docs.foldl (mergeStep t) st)
      = st.out ++ mergeSpecWords t docs st.cur st.curSize st.idx := by
  induction docs with
  | nil =>
    intro st
    by_cases h : st.cur = [] <;> simp [mergeFinish, mergeSpecWords, h]
  | cons p rest ih =>
    intro st
    rw [List.foldl_cons, ih]
    by_cases h : st.curSize + p.size > t ∧ st.cur ≠ []
    · simp [mergeStep, mergeSpecWords, h]
    · simp [mergeStep, mergeSpecWords, h]

theorem merge_foldl_concat (t : Nat) (docs : List Doc) : ∀ st : MergeSt,
    ((docs.foldl (mergeStep t) st).out.map Prod.snd).flatten
        ++ (docs.foldl (mergeStep t) st).cur
      = (st.out.map Prod.snd).flatten ++ st.cur ++ docs := by
  induction docs with
  | nil => intro st; simp
  | cons p rest ih =>
    intro st
    rw [List.foldl_cons, ih]
    by_cases h : t < st.curSize + p.size ∧ st.cur ≠ []
    · simp [mergeStep, h]
    · simp [mergeStep, h]

theorem merge_pdfs_flatten (l : List (List Doc)) :
    (l.map merge_pdfs).flatten = (l.flatten.map Doc.pages).flatten := by
  induction l with
  | nil => simp
  | cons a as ih => simp [merge_pdfs, ih]

theorem merge_foldl_sizes (t : Nat) (docs : List Doc) : ∀ st : MergeSt,
    st.curSize = (st.cur.map Doc.size).sum →
    GroupOk t st.cur →
    (∀ g ∈ st.out, GroupOk t g.2) →
    ((docs.foldl (mergeStep t) st).curSize
        = ((docs.foldl (mergeStep t) st).cur.map Doc.size).sum
      ∧ GroupOk t (docs.foldl (mergeStep t) st).cur
      ∧ ∀ g ∈ (docs.foldl (mergeStep t) st).out, GroupOk t g.2) := by
  induction docs with
  | nil => intro st h1 h2 h3; exact ⟨h1, h2, h3⟩
  | cons p rest ih =>
    intro st h1 h2 h3
    rw [List.foldl_cons]
    by_cases h : st.curSize + p.size > t ∧ st.cur ≠ []
    · have e : mergeStep t st p
          = ⟨st.out ++ [(partName st.idx, st.cur)], [p], p.size, st.idx + 1⟩ := by
        simp [mergeStep, if_pos h]
      rw [e]
      refine ih _ ?_ ?_ ?_
      · simp
      · exact Or.inr ⟨p, rfl⟩
      · intro g hg
        rcases List.mem_append.mp hg with hg | hg
        · exact h3 g hg
        · rw [List.mem_singleton.mp hg]; exact h2
    · have e : mergeStep t st p
          = ⟨st.out, st.cur ++ [p], st.curSize + p.size, st.idx⟩ := by
        simp [mergeStep, if_neg h]
      rw [e]
      refine ih _ ?_ ?_ ?_
      · simp [h1]
      · rcases not_and_or.mp h with hle | hnil
        · exact Or.inl (by simp [← h1]; omega)
        · push_neg at hnil
          exact Or.inr ⟨p, by simp [hnil]⟩
      · intro g hg
        exact h3 g hg

theorem merge_foldl_names (t : Nat) (docs : List Doc) : ∀ st : MergeSt,
    st.idx = st.out.length →
    st.out.map Prod.fst = (List.range st.out.length).map partName →
    ((docs.foldl (mergeStep t) st).idx = (docs.foldl (mergeStep t) st).out.length
      ∧ (docs.foldl (mergeStep t) st).out.map Prod.fst
          = (List.range (docs.foldl (mergeStep t) st).out.length).map partName) := by
  induction docs with
  | nil => intro st h1 h2; exact ⟨h1, h2⟩
  | cons p rest ih =>
    intro st h1 h2
    rw [List.foldl_cons]
    by_cases h : st.curSize + p.size > t ∧ st.cur ≠ []
    · refine ih _ ?_ ?_
      · simp [mergeStep, h, h1]
      · simp [mergeStep, h, List.range_succ, h2, h1]
    · refine ih _ ?_ ?_
      · simp [mergeStep, h, h1]
      · simp [mergeStep, h, h2]

/-- C2: for every input list, concatenating the merge groups in emission
order reproduces exactly the original document sequence (nothing dropped,
duplicated or reordered), and the page-level concatenation of the written
files equals the concatenation of all source pages in order. -/
theorem merge_by_size_exact_concat (docs : List Doc) (target_mb : Nat) :
    ((merge_by_size docs target_mb).map Prod.snd).flatten = docs
    ∧ ((merge_by_size docs target_mb).map (fun g => merge_pdfs g.2)).flatten
        = (docs.map Doc.pages).flatten := by
  have hbase : ((merge_by_size docs target_mb).map Prod.snd).flatten = docs := by
    have hmain := merge_foldl_concat (target_mb * 1024 * 1024) docs ⟨[], [], 0, 0⟩
    simp only [List.map_nil, List.flatten_nil, List.nil_append] at hmain
    unfold merge_by_size mergeFinish
    by_cases h : (docs.foldl (mergeStep (target_mb * 1024 * 1024)) ⟨[], [], 0, 0⟩).cur = []
    · simp only [h, ne_eq, not_true_eq_false, if_false]
      simpa [h] using hmain
    · simp only [ne_eq, h, not_false_eq_true, if_true]
      simpa using hmain
  refine ⟨hbase, ?_⟩
  have hcomp : (merge_by_size docs target_mb).map (fun g => merge_pdfs g.2)
      = ((merge_by_size docs target_mb).map Prod.snd).map merge_pdfs := by
    simp [List.map_map]
  rw [hcomp, merge_pdfs_flatten, hbase]

/-- C3: every merge group is within the byte threshold, except that a
group may be a single document whose own size already exceeds it; an
oversized document is never split and always stands alone. -/
theorem merge_by_size_bounded (docs : List Doc) (target_mb : Nat)
    (g : List Doc) (hg : g ∈ (merge_by_size docs target_mb).map Prod.snd) :
    (g.map Doc.size).sum ≤ target_mb * 1024 * 1024
    ∨ ∃ d, g = [d] ∧ d.size > target_mb * 1024 * 1024 := by
  have hinv := merge_foldl_sizes (target_mb * 1024 * 1024) docs ⟨[], [], 0, 0⟩
    (by simp) (Or.inl (by simp)) (by simp)
  have hok : GroupOk (target_mb * 1024 * 1024) g := by
    unfold merge_by_size mergeFinish at hg
    by_cases h : (docs.foldl (mergeStep (target_mb * 1024 * 1024)) ⟨[], [], 0, 0⟩).cur = []
    · simp only [h, ne_eq, not_true_eq_false, if_false] at hg
      obtain ⟨pr, hpr, hsnd⟩ := List.mem_map.mp hg
      rw [← hsnd]
      exact hinv.2.2 pr hpr
    · simp only [ne_eq, h, not_false_eq_true, if_true, List.map_append] at hg
      rcases List.mem_append.mp hg with hg | hg
      · obtain ⟨pr, hpr, hsnd⟩ := List.mem_map.mp hg
        rw [← hsnd]
        exact hinv.2.2 pr hpr
      · rw [List.mem_singleton.mp hg]
        exact hinv.2.1
  rcases hok with hle | ⟨d, hd⟩
  · exact Or.inl hle
  · by_cases hsz : d.size ≤ target_mb * 1024 * 1024
    · exact Or.inl (by simp [hd]; omega)
    · exact Or.inr ⟨d, hd, by omega⟩

/-- Witness for C3 at the spec scenario of a single 25 MB document with a
20 MB threshold: it forms its own group despite exceeding the threshold. -/
theorem merge_by_size_bounded_witness :
    ((([⟨25 * 1024 * 1024, [1, 2]⟩] : List Doc).map Doc.size).sum
        ≤ 20 * 1024 * 1024)
    ∨ ∃ d, ([⟨25 * 1024 * 1024, [1, 2]⟩] : List Doc) = [d]
        ∧ d.size > 20 * 1024 * 1024 :=
  merge_by_size_bounded [⟨25 * 1024 * 1024, [1, 2]⟩] 20
    [⟨25 * 1024 * 1024, [1, 2]⟩] (by decide)

/-- C4: merge_by_size is exactly the single greedy pass described by the
spec (flush a non-empty running group before a document that would push it
over the threshold, always append, flush the remainder), and on three 8 MB
documents with a 20 MB threshold it emits the first two as part 0 and the
third alone as part 1. -/
theorem merge_by_size_greedy (docs : List Doc) (target_mb : Nat) :
    merge_by_size docs target_mb
      = mergeSpecWords (target_mb * 1024 * 1024) docs [] 0 0
    ∧ merge_by_size
        [⟨8 * 1024 * 1024, [1]⟩, ⟨8 * 1024 * 1024, [2]⟩, ⟨8 * 1024 * 1024, [3]⟩] 20
      = [(partName 0, [⟨8 * 1024 * 1024, [1]⟩, ⟨8 * 1024 * 1024, [2]⟩]),
         (partName 1, [⟨8 * 1024 * 1024, [3]⟩])] := by
  constructor
  · have h := mergeFinish_foldl (target_mb * 1024 * 1024) docs ⟨[], [], 0, 0⟩
    unfold merge_by_size
    simpa using h
  · rfl

/-- C8: output files are named merged_part then the group index zero-padded
to three digits then .pdf, numbered sequentially from 0 in flush order. -/
theorem merge_by_size_naming (docs : List Doc) (target_mb : Nat) :
    (merge_by_size docs target_mb).map Prod.fst
      = (List.range (merge_by_size docs target_mb).length).map partName
    ∧ partName 0 = "merged_part000.pdf"
    ∧ partName 42 = "merged_part042.pdf"
    ∧ partName 123 = "merged_part123.pdf" := by
  refine ⟨?_, rfl, rfl, rfl⟩
  have hinv := merge_foldl_names (target_mb * 1024 * 1024) docs ⟨[], [], 0, 0⟩
    (by simp) (by simp)
  unfold merge_by_size mergeFinish
  by_cases h : (docs.foldl (mergeStep (target_mb * 1024 * 1024)) ⟨[], [], 0, 0⟩).cur = []
  · simp only [h, ne_eq, not_true_eq_false, if_false]
    exact hinv.2
  · simp only [ne_eq, h, not_false_eq_true, if_true]
    rw [List.map_append, hinv.2, List.length_append]
    simp [List.range_succ, hinv.1]

/-- C10: a zero-page source document makes the pipeline raise (the sheet
list is empty and the encoder indexes its first element), so no Tiled
Document is produced and the ceiling page-count property does not extend
to an empty input. -/
theorem process_single_pdf_zero_pages (th : Img → Nat → Nat → Img) :
    process_single_pdf th [] PAGES_PER_SHEET = .error "list index out of range" := rfl

/-- C5: with a positive grid, the Compositor raises exactly when the input
count differs from cols times rows, and on success it never pads or
truncates: the sheet holds one paste per input image. -/
theorem build_grid_sheet_count_check (th : Img → Nat → Nat → Img)
    (images : List Img) (cols rows : Nat) (hc : 0 < cols) (hr : 0 < rows) :
    ((∃ e, build_grid_sheet th images cols rows = .error e)
        ↔ images.length ≠ cols * rows)
    ∧ ∀ s, build_grid_sheet th images cols rows = .ok s →
        s.pastes.length = images.length := by
  by_cases hlen : images.length = cols * rows
  · have hz : ¬(cols = 0 ∨ rows = 0) := by omega
    have hok : build_grid_sheet th images cols rows
        = .ok { width := A4_W, height := A4_H,
                pastes := images.enum.map (fun pr =>
                  let idx := pr.1
                  let img := th pr.2 (A4_W / cols) (A4_H / rows)
                  { x := ((idx % cols) * (A4_W / cols) : Nat)
                        + ((A4_W / cols : Nat) - (img.width : Int)).fdiv 2,
                    y := ((idx / cols) * (A4_H / rows) : Nat)
                        + ((A4_H / rows : Nat) - (img.height : Int)).fdiv 2,
                    img := img }) } := by
      unfold build_grid_sheet
      rw [if_neg (by simpa using hlen), if_neg hz]
    constructor
    · constructor
      · rintro ⟨e, he⟩
        rw [hok] at he
        exact absurd he (by simp)
      · intro hne; exact absurd hlen hne
    · intro s hs
      rw [hok] at hs
      have := Except.ok.inj hs
      rw [← this]
      simp
  · have herr : build_grid_sheet th images cols rows
        = .error ("need exact " ++ toString (cols * rows) ++ " images") := by
      unfold build_grid_sheet
      rw [if_pos (by simpa using hlen)]
    exact ⟨⟨fun _ => hlen, fun _ => ⟨_, herr⟩⟩,
      fun s hs => absurd (herr ▸ hs) (by simp)⟩

/-- Witness for C5 on a one by one grid: the empty batch raises, and no
sheet is produced from it. -/
theorem build_grid_sheet_count_check_witness :
    ((∃ e, build_grid_sheet thW [] 1 1 = .error e)
        ↔ (List.length ([] : List Img) ≠ 1 * 1))
    ∧ ∀ s, build_grid_sheet thW [] 1 1 = .ok s →
        s.pastes.length = List.length ([] : List Img) :=
  build_grid_sheet_count_check thW [] 1 1 (by decide) (by decide)

/-- C6: every sheet the Compositor returns has exactly the fixed A4 canvas
width and height, whatever the input image sizes. -/
theorem build_grid_sheet_canvas (th : Img → Nat → Nat → Img)
    (images : List Img) (cols rows : Nat) (s : Sheet)
    (h : build_grid_sheet th images cols rows = .ok s) :
    s.width = A4_W ∧ s.height = A4_H := by
  unfold build_grid_sheet at h
  by_cases h1 : images.length ≠ cols * rows
  · rw [if_pos h1] at h
    exact absurd h (by simp)
  · rw [if_neg h1] at h
    by_cases h2 : cols = 0 ∨ rows = 0
    · rw [if_pos h2] at h
      exact absurd h (by simp)
    · rw [if_neg h2] at h
      have := Except.ok.inj h
      rw [← this]
      exact ⟨rfl, rfl⟩

/-- Witness for C6 on a concrete one-image batch whose sheet is sheetW. -/
theorem build_grid_sheet_canvas_witness :
    sheetW.width = A4_W ∧ sheetW.height = A4_H :=
  build_grid_sheet_canvas thW [⟨100, 200, 7⟩] 1 1 sheetW (by rfl)

theorem pyRange_length (n k : Nat) : (pyRange n k).length = (n + k - 1) / k := by
  simp [pyRange]

theorem padTo_length_of_le {l : List Img} {k : Nat} (h : l.length ≤ k) :
    (padTo l k).length = k := by
  simp only [padTo, List.length_append, List.length_replicate]
  omega

theorem build_grid_sheet_ok_of_length (th : Img → Nat → Nat → Img)
    (images : List Img) (h : images.length = COLS * ROWS) :
    ∃ s, build_grid_sheet th images COLS ROWS = .ok s := by
  unfold build_grid_sheet
  rw [if_neg (by simpa using h), if_neg (by decide)]
  exact ⟨_, rfl⟩

theorem seqE_flatMap_ok (l : List Nat) (f : Nat → List (Except String Sheet))
    (hf : ∀ x, ∃ b, f x = [.ok b]) :
    ∃ out : List Sheet, seqE (l.flatMap f) = .ok out ∧ out.length = l.length := by
  induction l with
  | nil => exact ⟨[], rfl, rfl⟩
  | cons a as ih =>
    obtain ⟨b, hb⟩ := hf a
    obtain ⟨out, ho, hl⟩ := ih
    refine ⟨b :: out, ?_, by simp [hl]⟩
    rw [List.flatMap_cons, hb, List.singleton_append]
    simp only [seqE]
    rw [ho]
    rfl

theorem process_sheets_all_ok (th : Img → Nat → Nat → Img)
    (imgs : List Img) (i : Nat) :
    ∃ b, (let chunk := padTo ((imgs.drop i).take PAGES_PER_SHEET) PAGES_PER_SHEET
          let grid := COLS * ROWS
          (pyRange PAGES_PER_SHEET grid).map (fun j =>
            let group := padTo ((chunk.drop j).take grid) grid
            build_grid_sheet th group COLS ROWS)) = [.ok b] := by
  have hrange : pyRange PAGES_PER_SHEET (COLS * ROWS) = [0] := by decide
  simp only [hrange, List.map_cons, List.map_nil]
  have hchunk : (padTo ((imgs.drop i).take PAGES_PER_SHEET)
      PAGES_PER_SHEET).length = PAGES_PER_SHEET :=
    padTo_length_of_le (List.length_take_le _ _)
  have hgrp : (padTo (((padTo ((imgs.drop i).take PAGES_PER_SHEET)
      PAGES_PER_SHEET).drop 0).take (COLS * ROWS)) (COLS * ROWS)).length
      = COLS * ROWS :=
    padTo_length_of_le (List.length_take_le _ _)
  obtain ⟨s, hs⟩ := build_grid_sheet_ok_of_length th _ hgrp
  exact ⟨s, by rw [hs]⟩

/-- C1: a source document with at least one page yields a Tiled Document
with exactly the ceiling of N over G sheet pages, where G is the grid size
PAGES_PER_SHEET; in Nat arithmetic the ceiling of N over G is
(N + G - 1) / G.  Padding with blanks never adds a page beyond it. -/
theorem process_single_pdf_page_count (th : Img → Nat → Nat → Img)
    (imgs : List Img) (hN : 0 < imgs.length) :
    ∃ tiled, process_single_pdf th imgs PAGES_PER_SHEET = .ok tiled
      ∧ tiled.length
          = (imgs.length + PAGES_PER_SHEET - 1) / PAGES_PER_SHEET := by
  obtain ⟨out, hout, hlen⟩ := seqE_flatMap_ok (pyRange imgs.length PAGES_PER_SHEET) _
    (process_sheets_all_ok th imgs)
  rw [pyRange_length] at hlen
  have hpos : 0 < out.length := by
    rw [hlen]
    have : imgs.length + PAGES_PER_SHEET - 1 ≥ PAGES_PER_SHEET := by
      have : (20 : Nat) = PAGES_PER_SHEET := by decide
      omega
    exact Nat.div_pos this (by decide)
  obtain ⟨s, rest, hsr⟩ : ∃ s rest, out = s :: rest := by
    cases out with
    | nil => exact absurd hpos (by simp)
    | cons s rest => exact ⟨s, rest, rfl⟩
  refine ⟨out, ?_, hlen⟩
  unfold process_single_pdf process_sheets
  rw [hout, hsr]
  rfl

/-- Witness for C1 at the 17-page spec scenario: one sheet page. -/
theorem process_single_pdf_page_count_witness :
    ∃ tiled, process_single_pdf thW (List.replicate 17 blank) PAGES_PER_SHEET
        = .ok tiled
      ∧ tiled.length = ((List.replicate 17 blank : List Img).length
          + PAGES_PER_SHEET - 1) / PAGES_PER_SHEET :=
  process_single_pdf_page_count thW (List.replicate 17 blank) (by decide)

theorem int_fdiv_two_of_le (n m : Nat) (hmn : m ≤ n) :
    ((n : Int) - (m : Int)).fdiv 2 = (((n - m) / 2 : Nat) : Int) := by
  have h1 : (n : Int) - m = ((n - m : Nat) : Int) := by omega
  rw [h1, Int.fdiv_eq_ediv _ (by norm_num)]
  exact (Int.natCast_div _ _).symm

/-- C7: on a valid batch the Compositor fills all cols times rows cells in
row-major order: the image at index idx, downscaled by the thumbnail
primitive into its cell, is pasted in cell column idx mod cols and row
idx div cols, at an offset of half the leftover cell space in each axis.
The hypothesis hfit is the contract of the external downscale primitive:
its result fits inside the requested bounding box. -/
theorem build_grid_sheet_row_major (th : Img → Nat → Nat → Img)
    (images : List Img) (cols rows : Nat) (hc : 0 < cols) (hr : 0 < rows)
    (hlen : images.length = cols * rows)
    (hfit : ∀ img ∈ images,
        (th img (A4_W / cols) (A4_H / rows)).width ≤ A4_W / cols
        ∧ (th img (A4_W / cols) (A4_H / rows)).height ≤ A4_H / rows) :
    ∃ s, build_grid_sheet th images cols rows = .ok s
      ∧ s.pastes.length = cols * rows
      ∧ ∀ idx, idx < cols * rows →
          ∃ src, images[idx]? = some src
            ∧ s.pastes[idx]? = some
                { x := (((idx % cols) * (A4_W / cols)
                    + (A4_W / cols
                        - (th src (A4_W / cols) (A4_H / rows)).width) / 2 : Nat) : Int),
                  y := (((idx / cols) * (A4_H / rows)
                    + (A4_H / rows
                        - (th src (A4_W / cols) (A4_H / rows)).height) / 2 : Nat) : Int),
                  img := th src (A4_W / cols) (A4_H / rows) } := by
  have hz : ¬(cols = 0 ∨ rows = 0) := by omega
  unfold build_grid_sheet
  rw [if_neg (by simpa using hlen), if_neg hz]
  refine ⟨_, rfl, ?_, ?_⟩
  · simp [hlen]
  · intro idx hidx
    have hidx' : idx < images.length := by rw [hlen]; exact hidx
    refine ⟨images[idx], List.getElem?_eq_getElem hidx', ?_⟩
    rw [List.getElem?_map, List.enum_eq_enumFrom, List.getElem?_enumFrom,
        List.getElem?_eq_getElem hidx']
    obtain ⟨hw, hh⟩ := hfit images[idx] (List.getElem_mem _)
    simp only [Option.map_some, Nat.zero_add]
    refine congrArg some ?_
    simp only [Paste.mk.injEq]
    refine ⟨?_, ?_, trivial⟩
    · rw [int_fdiv_two_of_le _ _ hw]
      push_cast
      ring
    · rw [int_fdiv_two_of_le _ _ hh]
      push_cast
      ring

/-- Witness for C7 on a one by one grid with a single 100 by 200 image
that already fits its cell. -/
theorem build_grid_sheet_row_major_witness :
    ∃ s, build_grid_sheet thW [⟨100, 200, 7⟩] 1 1 = .ok s
      ∧ s.pastes.length = 1 * 1
      ∧ ∀ idx, idx < 1 * 1 →
          ∃ src, ([⟨100, 200, 7⟩] : List Img)[idx]? = some src
            ∧ s.pastes[idx]? = some
                { x := (((idx % 1) * (A4_W / 1)
                    + (A4_W / 1 - (thW src (A4_W / 1) (A4_H / 1)).width) / 2 : Nat) : Int),
                  y := (((idx / 1) * (A4_H / 1)
                    + (A4_H / 1 - (thW src (A4_W / 1) (A4_H / 1)).height) / 2 : Nat) : Int),
                  img := thW src (A4_W / 1) (A4_H / 1) } :=
  build_grid_sheet_row_major thW [⟨100, 200, 7⟩] 1 1 (by decide) (by decide) (by decide)
    (by decide)

/-- C9: when the filtered source listing holds no PDF files, main prints
the no-files message, writes neither tiled nor merged outputs, and returns
normally. -/
theorem main_no_pdfs (th : Img → Nat → Nat → Img) (render : String → List Img)
    (szOf : String → Nat) (entries : List DirEntry)
    (h : entries.filter isPdfEntry = []) :
    main th render szOf entries
      = .ok { printed := [.noFiles], tiled := [], merged := [] } := by
  unfold main listSrcPdfs
  rw [h]
  simp

/-- Witness for C9: a source directory whose only entries are a
subdirectory and nothing else, so the PDF filter is empty. -/
theorem main_no_pdfs_witness :
    main thW renderW szOfW [⟨"sub", "sub", "", false⟩]
      = .ok { printed := [.noFiles], tiled := [], merged := [] } :=
  main_no_pdfs thW renderW szOfW [⟨"sub", "sub", "", false⟩] (by decide)

end PdfNin1
